import Mathlib

/-!
Formal model of the bella-2up.io retrieval-augmented support-bot pipeline.

Each definition is a shallow embedding of the corresponding Python
function in `app/`:
  * `app/config.py`            — configuration constants, `PersonaType`
  * `app/models.py`            — `MessageRole`, `Message`
  * `app/services/query_translator.py` — `QueryTranslator.translate_query`
  * `app/services/vector_service.py`   — similarity conversion and result
    processing inside `ChromaVectorService.search_similar`
  * `app/services/context_builder.py`  — `ContextBuilder.build_context_for_ai`
  * `app/services/ai_service.py`       — `DeepSeekService.generate_response`
  * `app/database.py`          — `DatabaseManager.save_message`,
    `_update_message_count`, `_cleanup_old_messages`, `clear_chat_history`,
    `get_chat_state`

External collaborators (HTTP backends, the Chroma index, the SQLite engine,
the file system) are modelled at their interface boundary: every external
call site takes the outcome that call would produce as an explicit
parameter, and Python floats are modelled as rationals.  Audit-log file
writes are fire-and-forget side effects with no influence on any returned
value and are elided.
-/

namespace Bella

/-! ## Configuration (`app/config.py`) -/

/-- `Config.MESSAGE_HISTORY_LIMIT` (default value of the env knob). -/
def MESSAGE_HISTORY_LIMIT : Nat := 20

/-- `Config.ERROR_MESSAGE` — the fixed operator-busy fallback text. -/
def ERROR_MESSAGE : String := "Оператор не в сети, просим набраться терпения"

/-- `Config.VECTOR_SEARCH_LIMIT` (default). -/
def VECTOR_SEARCH_LIMIT : Nat := 8

/-- `Config.VECTOR_SIMILARITY_THRESHOLD` (default `0.7`). -/
def VECTOR_SIMILARITY_THRESHOLD : ℚ := 7/10

/-- `PersonaType` enumeration from `app/config.py`. -/
inductive PersonaType where
  | business
  | bella
  | ben
deriving DecidableEq, Repr

/-- `PersonaType.value` — the string stored in the database. -/
def PersonaType.value : PersonaType → String
  | .business => "business"
  | .bella => "bella"
  | .ben => "ben"

/-! ## Data model (`app/models.py`) -/

/-- `MessageRole` enumeration. -/
inductive MessageRole where
  | user
  | assistant
  | system
deriving DecidableEq, Repr

/-- `MessageRole.value`. -/
def MessageRole.value : MessageRole → String
  | .user => "user"
  | .assistant => "assistant"
  | .system => "system"

/-- The `Message` dataclass, restricted to one conversation (every SQL
statement in `app/database.py` filters on one `chat_id`, so conversations
are independent and we model a single conversation's slice of the store;
`chat_id` is therefore implicit).  `created_at` timestamps are naturals. -/
structure Message where
  id : Nat
  user_id : Option Nat
  message_id : Option Nat
  role : MessageRole
  content : String
  persona_type : PersonaType
  created_at : Nat
deriving DecidableEq, Repr

/-- `Message.to_dict` produces the role/content pair sent to the AI API. -/
structure ApiMessage where
  role : String
  content : String
deriving DecidableEq, Repr

/-- `Message.to_dict` from `app/models.py`. -/
def Message.to_dict (m : Message) : ApiMessage :=
  { role := m.role.value, content := m.content }

/-! ## Python-level helpers -/

/-- An exception value (`Exception` subclasses collapse to their message:
the code only ever catches bare `Exception`). -/
structure PyError where
  msg : String
deriving DecidableEq, Repr

/-- ASCII whitespace as recognised by Python's `str.strip()`
(Unicode-only whitespace code points are immaterial to every claim and
are not listed). -/
def pyIsSpace (c : Char) : Bool :=
  c = ' ' || c = '\t' || c = '\n' || c = '\r' || c = '\x0b' || c = '\x0c'

/-- Python `str.strip()`: drop leading and trailing whitespace. -/
def pyStrip (s : String) : String :=
  ⟨((s.data.dropWhile pyIsSpace).reverse.dropWhile pyIsSpace).reverse⟩

/-! ## Query Classifier/Translator (`app/services/query_translator.py`) -/

/-- Outcome of the DeepSeek translation HTTP call, at the interface
boundary: `failure` is any exception raised by the transport or JSON
layers (timeout, non-2xx status, unparsable body, a body whose
`choices`/`message` structure cannot be navigated); `content raw` is a
successfully extracted `choices[0].message.content` string (before
`strip()`). -/
inductive TranslationBackend where
  | failure (e : PyError)
  | content (raw : String)
deriving DecidableEq, Repr

/-- `QueryTranslator._call_deepseek_translation`: strips the extracted
content and raises `ValueError` when the stripped content is empty. -/
def call_deepseek_translation : TranslationBackend → Except PyError String
  | .failure e => .error e
  | .content raw =>
      let translated := pyStrip raw
      if translated = "" then .error ⟨"Empty translation response from DeepSeek"⟩
      else .ok translated

/-- `QueryTranslator.translate_query`.  The second component records
whether the backend call site was reached (the call-count observable).
The `try/except Exception` in the source catches every error from
`_call_deepseek_translation` and falls back to the original query, so the
function is total: no exception escapes. -/
def translate_query (original_query : String) (backend : TranslationBackend) :
    Option String × Bool :=
  if pyStrip original_query = "" then (none, false)
  else
    match call_deepseek_translation backend with
    | .error _ => (some original_query, true)
    | .ok translated_query =>
        if translated_query = "CASUAL_CHAT" then (none, true)
        else (some translated_query, true)

/-! ### Translator lemmas -/

theorem pyStrip_empty : pyStrip "" = "" := rfl

theorem pyStrip_ne_empty_of_ne {s : String} (h : pyStrip s ≠ "") : s ≠ "" := by
  intro hs
  exact h (hs ▸ pyStrip_empty)

/-- C9 — empty or whitespace-only input returns `None` with no backend
call. -/
theorem translate_query_empty_input (q : String) (backend : TranslationBackend)
    (h : pyStrip q = "") :
    translate_query q backend = (none, false) := by
  simp [translate_query, h]

/-- Witness for `translate_query_empty_input` at the whitespace-only
input `"   "`. -/
theorem translate_query_empty_input_witness :
    translate_query "   " (.content "how to register") = (none, false) :=
  translate_query_empty_input "   " (.content "how to register") (by decide)

/-- C6 — on any backend failure (timeout, malformed or unnavigable
response, or empty response content) the translator fails open and
returns the original, untranslated query; no exception escapes (the
function is total by construction, mirroring the source's blanket
`except Exception`). -/
theorem translate_query_fail_open (q : String) (backend : TranslationBackend)
    (hq : pyStrip q ≠ "")
    (hb : (∃ e, backend = .failure e) ∨ (∃ raw, backend = .content raw ∧ pyStrip raw = "")) :
    translate_query q backend = (some q, true) := by
  rcases hb with ⟨e, he⟩ | ⟨raw, hraw, hempty⟩
  · simp [translate_query, call_deepseek_translation, hq, he]
  · simp [translate_query, call_deepseek_translation, hq, hraw, hempty]

/-- Witness for `translate_query_fail_open`: a timed-out backend call on a
non-empty query returns the original query. -/
theorem translate_query_fail_open_witness :
    translate_query "минимальный депозит" (.failure ⟨"ReadTimeout"⟩)
      = (some "минимальный депозит", true) :=
  translate_query_fail_open "минимальный депозит" (.failure ⟨"ReadTimeout"⟩)
    (by decide) (Or.inl ⟨⟨"ReadTimeout"⟩, rfl⟩)

/-- C10 — the translator returns `None` or a non-empty string, never the
empty string. -/
theorem translate_query_never_empty (q : String) (backend : TranslationBackend) :
    (translate_query q backend).1 = none ∨
      ∃ s, (translate_query q backend).1 = some s ∧ s ≠ "" := by
  by_cases hq : pyStrip q = ""
  · left
    simp [translate_query, hq]
  · cases backend with
    | failure e =>
        right
        exact ⟨q, by simp [translate_query, call_deepseek_translation, hq],
          pyStrip_ne_empty_of_ne hq⟩
    | content raw =>
        by_cases hr : pyStrip raw = ""
        · right
          exact ⟨q, by simp [translate_query, call_deepseek_translation, hq, hr],
            pyStrip_ne_empty_of_ne hq⟩
        · by_cases hc : pyStrip raw = "CASUAL_CHAT"
          · left
            simp [translate_query, call_deepseek_translation, hq, hr, hc]
          · right
            exact ⟨pyStrip raw,
              by simp [translate_query, call_deepseek_translation, hq, hr, hc], hr⟩

/-! ## Knowledge Retriever (`app/services/vector_service.py`) -/

/-- The distance-to-similarity conversion inside
`ChromaVectorService.search_similar` (lines 289–299).  Distances are
floats in the source, modelled as rationals. -/
def distanceSimilarity (distance : ℚ) : ℚ :=
  if distance ≤ 1 then 1 - distance
  else if distance ≤ 2 then 1 - distance / 2
  else max 0 (1 / (1 + distance))

/-- One (document, distance, metadata) triple as returned by the Chroma
index for a query (metadata kept opaque as a string). -/
structure SearchHit where
  content : String
  distance : ℚ
  meta_info : String
deriving DecidableEq, Repr

/-- One entry of the list returned by `search_similar`. -/
structure SearchResult where
  content : String
  similarity : ℚ
  distance : ℚ
  meta_info : String
deriving DecidableEq, Repr

/-- The per-hit result record built in the loop body. -/
def SearchHit.toResult (h : SearchHit) : SearchResult :=
  { content := h.content
    similarity := distanceSimilarity h.distance
    distance := h.distance
    meta_info := h.meta_info }

/-- The result-collection loop of `search_similar`: convert each distance
to a similarity and skip (`continue`) every hit whose similarity is
strictly below the threshold. -/
def collectResults (threshold : ℚ) (hits : List SearchHit) : List SearchResult :=
  hits.foldl
    (fun results h =>
      let s := distanceSimilarity h.distance
      if s < threshold then results else results ++ [h.toResult])
    []

/-- Descending order on similarity, as a non-strict relation; this is the
comparison performed by `results.sort(key=lambda x: x["similarity"],
reverse=True)`. -/
def simGe (a b : SearchResult) : Prop := b.similarity ≤ a.similarity

instance : DecidableRel simGe := fun a b => inferInstanceAs (Decidable (_ ≤ _))

instance : IsTotal SearchResult simGe :=
  ⟨fun a b => (le_total b.similarity a.similarity).imp (fun h => h) (fun h => h)⟩

instance : IsTrans SearchResult simGe := ⟨fun _ _ _ h₁ h₂ => le_trans h₂ h₁⟩

/-- `list.sort(key=..., reverse=True)` is a stable sort into descending
similarity order; insertion sort with the non-strict descending relation
is exactly that stable sort. -/
def sortBySimilarityDesc (results : List SearchResult) : List SearchResult :=
  List.insertionSort simGe results

/-- The post-index tail of `ChromaVectorService.search_similar`: build the
result records, drop those under the threshold, sort by similarity
descending. -/
def search_similar_process (threshold : ℚ) (hits : List SearchHit) : List SearchResult :=
  sortBySimilarityDesc (collectResults threshold hits)

/-- Spec-side similarity, exactly as §4.3 words it (no clamping in the
third band). -/
def specSimilarity (distance : ℚ) : ℚ :=
  if distance ≤ 1 then 1 - distance
  else if distance ≤ 2 then 1 - distance / 2
  else 1 / (1 + distance)

/-! ### Retriever lemmas -/

theorem collectResults_eq_filter_map (threshold : ℚ) (hits : List SearchHit) :
    collectResults threshold hits =
      (hits.map SearchHit.toResult).filter
        (fun r => decide (threshold ≤ r.similarity)) := by
  suffices h : ∀ acc,
      hits.foldl
        (fun results h =>
          let s := distanceSimilarity h.distance
          if s < threshold then results else results ++ [h.toResult]) acc =
      acc ++ (hits.map SearchHit.toResult).filter
        (fun r => decide (threshold ≤ r.similarity)) by
    simpa [collectResults] using h []
  induction hits with
  | nil => intro acc; simp
  | cons h t ih =>
      intro acc
      by_cases hlt : distanceSimilarity h.distance < threshold
      · have hnot : ¬ threshold ≤ h.toResult.similarity := by
          simpa [SearchHit.toResult] using not_le_of_lt hlt
        simp [List.foldl_cons, hlt, ih, hnot]
      · have hle : threshold ≤ h.toResult.similarity := by
          simpa [SearchHit.toResult] using le_of_not_lt hlt
        simp [List.foldl_cons, hlt, ih, hle]

theorem filter_orderedInsert_sim (c : ℚ) (x : SearchResult) (l : List SearchResult) :
    (List.orderedInsert simGe x l).filter (fun r => decide (r.similarity = c)) =
      if x.similarity = c then
        x :: l.filter (fun r => decide (r.similarity = c))
      else
        l.filter (fun r => decide (r.similarity = c)) := by
  induction l with
  | nil => by_cases hx : x.similarity = c <;> simp [List.orderedInsert, hx]
  | cons y t ih =>
      by_cases hr : simGe x y
      · by_cases hx : x.similarity = c <;>
          simp [List.orderedInsert, hr, hx]
      · have hy : ¬ y.similarity = c ∨ ¬ x.similarity = c := by
          by_contra hcon
          push_neg at hcon
          exact hr (by simp [simGe, hcon.1, hcon.2])
        by_cases hx : x.similarity = c
        · have hyne : ¬ y.similarity = c := by
            rcases hy with h | h
            · exact h
            · exact absurd hx h
          simp [List.orderedInsert, hr, hx, hyne, ih]
        · by_cases hyc : y.similarity = c <;>
            simp [List.orderedInsert, hr, hx, hyc, ih]

theorem filter_sortBySimilarityDesc (c : ℚ) (l : List SearchResult) :
    (sortBySimilarityDesc l).filter (fun r => decide (r.similarity = c)) =
      l.filter (fun r => decide (r.similarity = c)) := by
  induction l with
  | nil => rfl
  | cons x t ih =>
      show (List.orderedInsert simGe x (sortBySimilarityDesc t)).filter
          (fun r => decide (r.similarity = c)) = _
      rw [filter_orderedInsert_sim]
      by_cases hx : x.similarity = c
      · rw [if_pos hx, List.filter_cons, if_pos (by simp [hx]), ih]
      · rw [if_neg hx, List.filter_cons, if_neg (by simp [hx]), ih]

/-- C3 counterexample — the similarity conversion is not monotonic across
bands: distance `1.0` (first band) maps to `0.0` while the larger
distance `1.5` (second band) maps to `0.25`. -/
theorem distanceSimilarity_not_monotonic :
    (1 : ℚ) ≤ 3/2 ∧
      distanceSimilarity 1 = 0 ∧
      distanceSimilarity (3/2) = 1/4 ∧
      ¬ distanceSimilarity (3/2) ≤ distanceSimilarity 1 := by
  refine ⟨by norm_num, ?_, ?_, ?_⟩
  · simp [distanceSimilarity]
  · norm_num [distanceSimilarity]
  · norm_num [distanceSimilarity]

/-- C3 amended — the conversion is monotonic (smaller distance ⇒ greater
or equal similarity) within each of the three distance bands, though not
across bands. -/
theorem distanceSimilarity_monotonic_within_bands (d₁ d₂ : ℚ) (h : d₁ ≤ d₂) :
    (d₂ ≤ 1 → distanceSimilarity d₂ ≤ distanceSimilarity d₁) ∧
    (1 < d₁ → d₂ ≤ 2 → distanceSimilarity d₂ ≤ distanceSimilarity d₁) ∧
    (2 < d₁ → distanceSimilarity d₂ ≤ distanceSimilarity d₁) := by
  refine ⟨?_, ?_, ?_⟩
  · intro h2
    have h1 : d₁ ≤ 1 := le_trans h h2
    simp only [distanceSimilarity, if_pos h1, if_pos h2]
    linarith
  · intro hlo hhi
    have h1 : ¬ d₁ ≤ 1 := not_le_of_lt hlo
    have h2 : ¬ d₂ ≤ 1 := not_le_of_lt (lt_of_lt_of_le hlo h)
    have h1b : d₁ ≤ 2 := le_trans h hhi
    simp only [distanceSimilarity, if_neg h1, if_neg h2, if_pos h1b, if_pos hhi]
    linarith
  · intro hlo
    have h1 : ¬ d₁ ≤ 1 := not_le_of_lt (lt_trans one_lt_two hlo)
    have h2 : ¬ d₂ ≤ 1 := not_le_of_lt (lt_trans one_lt_two (lt_of_lt_of_le hlo h))
    have h1b : ¬ d₁ ≤ 2 := not_le_of_lt hlo
    have h2b : ¬ d₂ ≤ 2 := not_le_of_lt (lt_of_lt_of_le hlo h)
    simp only [distanceSimilarity, if_neg h1, if_neg h2, if_neg h1b, if_neg h2b]
    have hd1 : (0:ℚ) < 1 + d₁ := by linarith
    have hd2 : (0:ℚ) < 1 + d₂ := by linarith
    have hmono : 1 / (1 + d₂) ≤ 1 / (1 + d₁) :=
      one_div_le_one_div_of_le hd1 (by linarith)
    have hpos2 : (0:ℚ) ≤ 1 / (1 + d₂) := le_of_lt (div_pos one_pos hd2)
    have hpos1 : (0:ℚ) ≤ 1 / (1 + d₁) := le_of_lt (div_pos one_pos hd1)
    rw [max_eq_right hpos1, max_eq_right hpos2]
    exact hmono

/-- Witness for `distanceSimilarity_monotonic_within_bands` inside each
band. -/
theorem distanceSimilarity_monotonic_within_bands_witness :
    distanceSimilarity (1/2) ≤ distanceSimilarity (1/4) ∧
    distanceSimilarity 2 ≤ distanceSimilarity (3/2) ∧
    distanceSimilarity 4 ≤ distanceSimilarity 3 := by
  refine ⟨?_, ?_, ?_⟩
  · exact (distanceSimilarity_monotonic_within_bands (1/4) (1/2) (by norm_num)).1
      (by norm_num)
  · exact (distanceSimilarity_monotonic_within_bands (3/2) 2 (by norm_num)).2.1
      (by norm_num) (by norm_num)
  · exact (distanceSimilarity_monotonic_within_bands 3 4 (by norm_num)).2.2
      (by norm_num)

/-- C4 — full functional description of the post-index result processing
in `search_similar`: the band formulas, the `[0,1]` range for
non-negative distances, threshold filtering, and the stable descending
sort (ties keep index-returned order). -/
theorem search_similar_process_spec :
    (∀ d : ℚ, d ≤ 1 → distanceSimilarity d = 1 - d) ∧
    (∀ d : ℚ, 1 < d → d ≤ 2 → distanceSimilarity d = 1 - d / 2) ∧
    (∀ d : ℚ, 2 < d → distanceSimilarity d = 1 / (1 + d)) ∧
    (∀ d : ℚ, 0 ≤ d → 0 ≤ distanceSimilarity d ∧ distanceSimilarity d ≤ 1) ∧
    (∀ (t : ℚ) (hits : List SearchHit),
      (search_similar_process t hits).Perm
        ((hits.map SearchHit.toResult).filter (fun r => decide (t ≤ r.similarity)))) ∧
    (∀ (t : ℚ) (hits : List SearchHit),
      List.Sorted simGe (search_similar_process t hits)) ∧
    (∀ (t : ℚ) (hits : List SearchHit) (c : ℚ),
      (search_similar_process t hits).filter (fun r => decide (r.similarity = c)) =
        ((hits.map SearchHit.toResult).filter
          (fun r => decide (t ≤ r.similarity))).filter
            (fun r => decide (r.similarity = c))) := by
  refine ⟨?_, ?_, ?_, ?_, ?_, ?_, ?_⟩
  · intro d hd
    simp [distanceSimilarity, hd]
  · intro d hd1 hd2
    simp [distanceSimilarity, not_le_of_lt hd1, hd2]
  · intro d hd
    have h1 : ¬ d ≤ 1 := not_le_of_lt (lt_trans one_lt_two hd)
    have h2 : ¬ d ≤ 2 := not_le_of_lt hd
    have hden : (0:ℚ) < 1 + d := by linarith
    have hpos : (0:ℚ) ≤ 1 / (1 + d) := le_of_lt (div_pos one_pos hden)
    rw [distanceSimilarity, if_neg h1, if_neg h2, max_eq_right hpos]
  · intro d hd
    by_cases h1 : d ≤ 1
    · rw [distanceSimilarity, if_pos h1]
      constructor <;> linarith
    · by_cases h2 : d ≤ 2
      · rw [distanceSimilarity, if_neg h1, if_pos h2]
        have hd1 : 1 < d := lt_of_not_le h1
        constructor <;> linarith
      · rw [distanceSimilarity, if_neg h1, if_neg h2]
        have hd2 : 2 < d := lt_of_not_le h2
        have hden : (0:ℚ) < 1 + d := by linarith
        constructor
        · exact le_max_left 0 _
        · have h1d : 1 / (1 + d) ≤ 1 := by
            rw [div_le_one hden]; linarith
          exact max_le (by norm_num) h1d
  · intro t hits
    rw [search_similar_process, collectResults_eq_filter_map]
    exact List.perm_insertionSort simGe _
  · intro t hits
    exact List.sorted_insertionSort simGe _
  · intro t hits c
    rw [search_similar_process, filter_sortBySimilarityDesc, collectResults_eq_filter_map]

/-- Witness for `search_similar_process_spec` at concrete inputs: the
band formulas at `1/2`, `3/2`, `3`, the range at `3`, and the processing
of a two-hit list (equal similarities keep index order). -/
theorem search_similar_process_spec_witness :
    distanceSimilarity (1/2) = 1 - 1/2 ∧
    distanceSimilarity (3/2) = 1 - (3/2) / 2 ∧
    distanceSimilarity 3 = 1 / (1 + 3) ∧
    (0 ≤ distanceSimilarity 3 ∧ distanceSimilarity 3 ≤ 1) ∧
    List.Sorted simGe
      (search_similar_process (1/10)
        [⟨"a", 1/2, "ma"⟩, ⟨"b", 1/2, "mb"⟩]) := by
  refine ⟨?_, ?_, ?_, ?_, ?_⟩
  · exact search_similar_process_spec.1 (1/2) (by norm_num)
  · exact search_similar_process_spec.2.1 (3/2) (by norm_num) (by norm_num)
  · exact search_similar_process_spec.2.2.1 3 (by norm_num)
  · exact search_similar_process_spec.2.2.2.1 3 (by norm_num)
  · exact search_similar_process_spec.2.2.2.2.2.1 (1/10)
      [⟨"a", 1/2, "ma"⟩, ⟨"b", 1/2, "mb"⟩]

/-! ## Context Assembler (`app/services/context_builder.py`) -/

/-- `ContextBuilder.system_prompt_threshold` (constructor constant). -/
def system_prompt_threshold : Nat := 5

/-- The hard-coded fallback system instruction built in the `except`
branch of `build_context_for_ai`. -/
def fallbackPrompt (persona : PersonaType) : String :=
  "Ты консультант казино в режиме " ++ persona.value ++ ". Отвечай профессионально."

/-- Outcome of `prompt_service.get_system_prompt(persona,
promotions_info, context_info)`: the resolved template text, or the
exception it raised.  Template loading and placeholder substitution live
behind this boundary. -/
def PromptResolver : Type :=
  PersonaType → Option String → Option String → Except PyError String

/-- The `history_messages` list of `build_context_for_ai` (the history
turns whose role is user or assistant, in order), converted to API
format via `Message.to_dict`. -/
def historyOf (messages : List Message) : List ApiMessage :=
  (messages.filter
    (fun m => m.role = MessageRole.user ∨ m.role = MessageRole.assistant)).map
    Message.to_dict

/-- `ContextBuilder.build_context_for_ai`.  The single `try/except` of
the source catches any exception from the prompt resolution (the only
raising operation in the `try` body) and falls back to the minimal
two-message sequence.  The source compares `len(history_messages)` (the
filtered `Message` list) against the threshold; `historyOf` is that list
mapped through `to_dict`, which preserves length. -/
def build_context_for_ai (resolve : PromptResolver) (messages : List Message)
    (persona : PersonaType) (current_message_content : String)
    (promotions_info : Option String) (vector_context : Option String) :
    List ApiMessage :=
  match resolve persona promotions_info vector_context with
  | .error _ =>
      [{ role := "system", content := fallbackPrompt persona },
       { role := "user", content := current_message_content }]
  | .ok system_prompt =>
      [({ role := "system", content := system_prompt } : ApiMessage)]
        ++ historyOf messages
        ++ (if system_prompt_threshold < (historyOf messages).length then
              [({ role := "system", content := system_prompt } : ApiMessage)]
            else [])
        ++ [{ role := "user", content := current_message_content }]

/-! ### Context assembler lemmas -/

theorem history_map_no_system (messages : List Message) :
    (historyOf messages).countP (fun a => decide (a.role = "system")) = 0 := by
  rw [List.countP_eq_zero]
  intro a ha
  rw [historyOf, List.mem_map] at ha
  obtain ⟨m, hm, rfl⟩ := ha
  rw [List.mem_filter] at hm
  have hrole : m.role = MessageRole.user ∨ m.role = MessageRole.assistant := by
    simpa using hm.2
  rcases hrole with h | h <;> simp [Message.to_dict, h, MessageRole.value]

/-- C5 — with a successfully resolved prompt, the assembled sequence is
the system message, then exactly the user/assistant history turns in
order (system-role turns excluded), an identical second system message
exactly when more than 5 history turns were appended, and the current
message as the final user entry; the sequence holds exactly one system
message when the appended history count is at most 5 and exactly two
when it exceeds 5. -/
theorem build_context_for_ai_spec (resolve : PromptResolver)
    (messages : List Message) (persona : PersonaType) (current : String)
    (promotions_info vector_context : Option String) (p : String)
    (hres : resolve persona promotions_info vector_context = .ok p) :
    ((historyOf messages).length ≤ 5 →
      build_context_for_ai resolve messages persona current
          promotions_info vector_context =
        [{ role := "system", content := p }] ++ historyOf messages
          ++ [{ role := "user", content := current }] ∧
      (build_context_for_ai resolve messages persona current
          promotions_info vector_context).countP
        (fun a => decide (a.role = "system")) = 1) ∧
    (5 < (historyOf messages).length →
      build_context_for_ai resolve messages persona current
          promotions_info vector_context =
        [{ role := "system", content := p }] ++ historyOf messages
          ++ [{ role := "system", content := p }]
          ++ [{ role := "user", content := current }] ∧
      (build_context_for_ai resolve messages persona current
          promotions_info vector_context).countP
        (fun a => decide (a.role = "system")) = 2) := by
  have h0 := history_map_no_system messages
  constructor
  · intro hle
    have hnotlt : ¬ system_prompt_threshold < (historyOf messages).length :=
      not_lt_of_le hle
    constructor
    · rw [build_context_for_ai, hres]
      dsimp only
      rw [if_neg hnotlt]
      simp
    · rw [build_context_for_ai, hres]
      dsimp only
      rw [if_neg hnotlt]
      simp [List.countP_append, List.countP_cons, h0]
  · intro hgt
    have hlt : system_prompt_threshold < (historyOf messages).length := hgt
    constructor
    · rw [build_context_for_ai, hres]
      dsimp only
      rw [if_pos hlt]
    · rw [build_context_for_ai, hres]
      dsimp only
      rw [if_pos hlt]
      simp [List.countP_append, List.countP_cons, h0]

/-- Witness for `build_context_for_ai_spec`: a six-turn history yields a
duplicated system prompt around the history; a one-turn history yields a
single system prompt. -/
theorem build_context_for_ai_spec_witness :
    (build_context_for_ai (fun _ _ _ => .ok "P")
        [⟨1, none, none, MessageRole.user, "m1", PersonaType.business, 0⟩]
        PersonaType.business "hello" none none).countP
      (fun a => decide (a.role = "system")) = 1 ∧
    (build_context_for_ai (fun _ _ _ => .ok "P")
        [⟨1, none, none, MessageRole.user, "m1", PersonaType.business, 0⟩,
         ⟨2, none, none, MessageRole.assistant, "m2", PersonaType.business, 1⟩,
         ⟨3, none, none, MessageRole.user, "m3", PersonaType.business, 2⟩,
         ⟨4, none, none, MessageRole.assistant, "m4", PersonaType.business, 3⟩,
         ⟨5, none, none, MessageRole.user, "m5", PersonaType.business, 4⟩,
         ⟨6, none, none, MessageRole.assistant, "m6", PersonaType.business, 5⟩]
        PersonaType.business "hello" none none).countP
      (fun a => decide (a.role = "system")) = 2 := by
  constructor
  · exact ((build_context_for_ai_spec (fun _ _ _ => .ok "P")
      [⟨1, none, none, MessageRole.user, "m1", PersonaType.business, 0⟩]
      PersonaType.business "hello" none none "P" rfl).1 (by decide)).2
  · exact ((build_context_for_ai_spec (fun _ _ _ => .ok "P")
      [⟨1, none, none, MessageRole.user, "m1", PersonaType.business, 0⟩,
       ⟨2, none, none, MessageRole.assistant, "m2", PersonaType.business, 1⟩,
       ⟨3, none, none, MessageRole.user, "m3", PersonaType.business, 2⟩,
       ⟨4, none, none, MessageRole.assistant, "m4", PersonaType.business, 3⟩,
       ⟨5, none, none, MessageRole.user, "m5", PersonaType.business, 4⟩,
       ⟨6, none, none, MessageRole.assistant, "m6", PersonaType.business, 5⟩]
      PersonaType.business "hello" none none "P" rfl).2 (by decide)).2

/-- C7 — when prompt resolution raises, the assembler returns the minimal
two-message fallback (generic persona-labeled system instruction plus the
current user message) and propagates no exception (the embedded function
is total). -/
theorem build_context_for_ai_fallback (resolve : PromptResolver)
    (messages : List Message) (persona : PersonaType) (current : String)
    (promotions_info vector_context : Option String) (e : PyError)
    (hres : resolve persona promotions_info vector_context = .error e) :
    build_context_for_ai resolve messages persona current
        promotions_info vector_context =
      [{ role := "system", content := fallbackPrompt persona },
       { role := "user", content := current }] := by
  rw [build_context_for_ai, hres]

/-- Witness for `build_context_for_ai_fallback` at a concrete failing
resolver. -/
theorem build_context_for_ai_fallback_witness :
    build_context_for_ai (fun _ _ _ => .error ⟨"template missing"⟩)
        [] PersonaType.bella "hi" none none =
      [{ role := "system", content := fallbackPrompt PersonaType.bella },
       { role := "user", content := "hi" }] :=
  build_context_for_ai_fallback (fun _ _ _ => .error ⟨"template missing"⟩)
    [] PersonaType.bella "hi" none none ⟨"template missing"⟩ rfl

/-! ## Generation Orchestrator (`app/services/ai_service.py`) -/

/-- `f"[Релевантность: {similarity:.2f}] {content}"` — the annotation of
one retrieved snippet.  The exact two-decimal float rendering is opaque
to every claim; the rational is rendered with its default textual form. -/
def format_context_part (r : SearchResult) : String :=
  "[Релевантность: " ++ toString r.similarity ++ "] " ++ r.content

/-- The navigable part of a DeepSeek chat-completion response:
`data["choices"][0]["message"]["content"]`, `none` when the key chain
ends in a default.  Transport errors, non-2xx statuses, unparsable JSON
bodies and an empty `choices` list (an `IndexError`) are the `.error`
side of the oracle. -/
structure BackendReply where
  content : Option String
deriving DecidableEq, Repr

/-- `DeepSeekService._get_vector_context`: translate the query (fail-open
inside `translate_query`), run the vector search, and format the results;
its own `try/except Exception` turns any retriever exception into `None`
so that generation continues without vector context. -/
def get_vector_context (query : String) (translator : TranslationBackend)
    (search : Except PyError (List SearchResult)) : Option String :=
  match (translate_query query translator).1 with
  | none => none
  | some _ =>
      match search with
      | .error _ => none
      | .ok search_results =>
          if search_results.isEmpty then none
          else
            let context_parts := search_results.filterMap
              (fun r => if r.content = "" then none else some (format_context_part r))
            if context_parts.isEmpty then none
            else some (String.intercalate "\n\n" context_parts)

/-- The context sent to the generation backend by `generate_response`:
recent history, persona prompt, promotions, and the vector context built
from the (possibly failing) retriever call
`vector_service.search_similar(translated_query)`. -/
def deepseek_context (resolve : PromptResolver) (messages : List Message)
    (persona : PersonaType) (current_message : String)
    (promotions_info : Option String) (translator : TranslationBackend)
    (searchRaw : Except PyError (List SearchHit)) : List ApiMessage :=
  build_context_for_ai resolve messages persona current_message promotions_info
    (get_vector_context current_message translator
      (searchRaw.map (search_similar_process VECTOR_SIMILARITY_THRESHOLD)))

/-- The `try` body of `DeepSeekService.generate_response`: fetch history
(may raise), build the vector context (never raises), assemble the
context (never raises), call the backend (may raise), extract the
response text and raise `ValueError` when it is missing or empty. -/
def generate_response_body (history : Except PyError (List Message))
    (translator : TranslationBackend) (searchRaw : Except PyError (List SearchHit))
    (resolve : PromptResolver) (backend : List ApiMessage → Except PyError BackendReply)
    (persona : PersonaType) (current_message : String)
    (promotions_info : Option String) : Except PyError String :=
  match history with
  | .error e => .error e
  | .ok messages =>
      match backend (deepseek_context resolve messages persona current_message
          promotions_info translator searchRaw) with
      | .error e => .error e
      | .ok data =>
          match data.content with
          | some response_text =>
              if response_text = "" then
                Except.error ⟨"Empty response from DeepSeek API"⟩
              else Except.ok response_text
          | none => Except.error ⟨"Empty response from DeepSeek API"⟩

/-- `DeepSeekService.generate_response`: the blanket `except Exception`
converts any escaping error into the fixed fallback text. -/
def generate_response (history : Except PyError (List Message))
    (translator : TranslationBackend) (searchRaw : Except PyError (List SearchHit))
    (resolve : PromptResolver) (backend : List ApiMessage → Except PyError BackendReply)
    (persona : PersonaType) (current_message : String)
    (promotions_info : Option String) : String :=
  match generate_response_body history translator searchRaw resolve backend persona
      current_message promotions_info with
  | .ok response_text => response_text
  | .error _ => ERROR_MESSAGE

/-- An outcome of the generation backend that the orchestrator treats as
a failure: a raised exception, or a response with missing or empty
content. -/
def badReply : Except PyError BackendReply → Prop := fun r =>
  (∃ e, r = .error e) ∨ r = .ok ⟨none⟩ ∨ r = .ok ⟨some ""⟩

/-! ### Orchestrator lemmas -/

/-- C2 counterexample — an exception raised inside the retriever does not
produce the fallback message: with the vector search failing and the
generation backend answering `"Welcome"`, `generate_response` returns
`"Welcome"`, not `config.ERROR_MESSAGE`. -/
theorem generate_response_retriever_error_not_fallback :
    generate_response (.ok []) (.content "minimum deposit")
        (.error ⟨"Vector search failed"⟩) (fun _ _ _ => .ok "P")
        (fun _ => .ok ⟨some "Welcome"⟩) PersonaType.business
        "минимальный депозит" none = "Welcome" ∧
      ¬ ("Welcome" = ERROR_MESSAGE) := by
  constructor
  · rfl
  · decide

/-- C2 amended — `generate_response` never propagates an exception: it
always returns either a non-empty text produced by the generation
backend or the fixed fallback `ERROR_MESSAGE`; an exception from the
history fetch and any failing or empty backend reply yield the fallback,
whereas classifier and retriever exceptions are absorbed below the
orchestrator boundary (fail-open translation, empty vector context) and
do not by themselves force the fallback. -/
theorem generate_response_failure_policy (history : Except PyError (List Message))
    (translator : TranslationBackend) (searchRaw : Except PyError (List SearchHit))
    (resolve : PromptResolver) (backend : List ApiMessage → Except PyError BackendReply)
    (persona : PersonaType) (current_message : String)
    (promotions_info : Option String) :
    (generate_response history translator searchRaw resolve backend persona
        current_message promotions_info = ERROR_MESSAGE ∨
      ∃ msgs t, backend (deepseek_context resolve msgs persona current_message
          promotions_info translator searchRaw) = .ok ⟨some t⟩ ∧ t ≠ "" ∧
        generate_response history translator searchRaw resolve backend persona
          current_message promotions_info = t) ∧
    (∀ e, history = .error e →
      generate_response history translator searchRaw resolve backend persona
        current_message promotions_info = ERROR_MESSAGE) ∧
    ((∀ msgs, badReply (backend msgs)) →
      generate_response history translator searchRaw resolve backend persona
        current_message promotions_info = ERROR_MESSAGE) := by
  refine ⟨?_, ?_, ?_⟩
  · cases history with
    | error e =>
        left
        rfl
    | ok msgs =>
        cases hb : backend (deepseek_context resolve msgs persona current_message
            promotions_info translator searchRaw) with
        | error e =>
            left
            simp [generate_response, generate_response_body, hb]
        | ok d =>
            obtain ⟨dc⟩ := d
            cases dc with
            | none =>
                left
                simp [generate_response, generate_response_body, hb]
            | some t =>
                by_cases ht : t = ""
                · left
                  simp [generate_response, generate_response_body, hb, ht]
                · right
                  refine ⟨msgs, t, hb, ht, ?_⟩
                  simp [generate_response, generate_response_body, hb, ht]
  · intro e he
    rw [he]
    rfl
  · intro hbad
    cases history with
    | error e => rfl
    | ok msgs =>
        rcases hbad (deepseek_context resolve msgs persona current_message
            promotions_info translator searchRaw) with ⟨e, hb⟩ | hb | hb <;>
          simp [generate_response, generate_response_body, hb]

/-- Witness for `generate_response_failure_policy`: a failing history
fetch yields the fallback message. -/
theorem generate_response_failure_policy_witness :
    generate_response (.error ⟨"database is locked"⟩) (.content "x") (.ok [])
        (fun _ _ _ => .ok "P") (fun _ => .ok ⟨some "ok"⟩) PersonaType.business
        "hi" none = ERROR_MESSAGE :=
  (generate_response_failure_policy (.error ⟨"database is locked"⟩) (.content "x")
      (.ok []) (fun _ _ _ => .ok "P") (fun _ => .ok ⟨some "ok"⟩) PersonaType.business
      "hi" none).2.1 ⟨"database is locked"⟩ rfl

/-! ## Conversation Store (`app/database.py`)

The SQLite tables are modelled per conversation (each statement filters
on one `chat_id`): `messages` is a list of `Message` rows in table
order, with the AUTOINCREMENT counter alongside, and `chat_states` is an
optional `ChatStateRow`.  `CURRENT_TIMESTAMP` is an explicit `now`
argument. -/

/-- Strict "less recent than" on stored rows: by `created_at`, ties by
`id`.  `ORDER BY created_at DESC LIMIT H` walks the
`(chat_id, created_at)` index, within which equal timestamps appear in
rowid order, so recency ties are broken by insertion id. -/
def recencyLt (a b : Message) : Prop :=
  a.created_at < b.created_at ∨ (a.created_at = b.created_at ∧ a.id < b.id)

instance : DecidableRel recencyLt := fun a b =>
  inferInstanceAs (Decidable (_ ∨ _))

/-- Number of stored rows strictly more recent than `r`. -/
def moreRecent (l : List Message) (r : Message) : Nat :=
  l.countP (fun s => decide (recencyLt r s))

/-- `DatabaseManager._cleanup_old_messages`: delete every row that is not
among the newest `H` (`id NOT IN (SELECT id ... ORDER BY created_at DESC
LIMIT H)`).  A row survives exactly when fewer than `H` rows are strictly
more recent than it. -/
def cleanup_old_messages (H : Nat) (l : List Message) : List Message :=
  l.filter (fun r => decide (moreRecent l r < H))

/-- The `chat_states` row of one conversation. -/
structure ChatStateRow where
  current_persona : PersonaType
  message_count : Nat
  last_activity : Nat
deriving DecidableEq, Repr

/-- One conversation's slice of the SQLite database. -/
structure ConvDB where
  messages : List Message
  next_id : Nat
  chat_state : Option ChatStateRow
deriving DecidableEq, Repr

/-- A fresh database: no rows, AUTOINCREMENT at 1, no state row. -/
def ConvDB.empty : ConvDB := ⟨[], 1, none⟩

/-- The caller-supplied part of a `Message` (the row id is assigned by
the database on insert). -/
structure NewMessage where
  user_id : Option Nat
  message_id : Option Nat
  role : MessageRole
  content : String
  persona_type : PersonaType
  created_at : Nat
deriving DecidableEq, Repr

/-- The row an insert produces once the id is assigned. -/
def NewMessage.toRow (m : NewMessage) (id : Nat) : Message :=
  ⟨id, m.user_id, m.message_id, m.role, m.content, m.persona_type, m.created_at⟩

/-- `COALESCE((SELECT current_persona ...), 'business')` — the existing
persona, or the default. -/
def persona_or_default (st : Option ChatStateRow) : PersonaType :=
  match st with
  | some s => s.current_persona
  | none => PersonaType.business

/-- `DatabaseManager._update_message_count`: upsert the state row, taking
`COUNT(*)` of the currently stored rows (it runs after the insert and
before the cleanup), preserving an existing persona and defaulting to
`'business'`. -/
def update_message_count (now : Nat) (db : ConvDB) : ConvDB :=
  { db with chat_state := some (
      { current_persona := persona_or_default db.chat_state
        message_count := db.messages.length
        last_activity := now : ChatStateRow }) }

/-- `DatabaseManager.save_message`: insert the row with a fresh id, then
`_update_message_count`, then `_cleanup_old_messages` with
`H = config.MESSAGE_HISTORY_LIMIT`; returns `cursor.lastrowid`.  The
three steps share one transaction, so the composite is one state
transition. -/
def save_message (H : Nat) (now : Nat) (m : NewMessage) (db : ConvDB) :
    Nat × ConvDB :=
  let row := m.toRow db.next_id
  let inserted : ConvDB :=
    { db with messages := db.messages ++ [row], next_id := db.next_id + 1 }
  let counted := update_message_count now inserted
  (row.id, { counted with messages := cleanup_old_messages H counted.messages })

/-- A sequence of `save_message` calls, given as (wall clock, payload)
pairs. -/
def run_saves (H : Nat) (db : ConvDB) : List (Nat × NewMessage) → ConvDB
  | [] => db
  | (now, m) :: rest => run_saves H (save_message H now m db).2 rest

/-- The rows such a run inserts, with ids assigned from `nid` on. -/
def rows_from (nid : Nat) : List (Nat × NewMessage) → List Message
  | [] => []
  | (_, m) :: rest => m.toRow nid :: rows_from (nid + 1) rest

/-- `DatabaseManager.clear_chat_history`: delete the conversation's
messages, returning `cursor.rowcount`, and `UPDATE` the state row's
counter to 0 (an `UPDATE` touches no row when none exists and never
deletes the row). -/
def clear_chat_history (now : Nat) (db : ConvDB) : Nat × ConvDB :=
  (db.messages.length,
   { db with
      messages := []
      chat_state := db.chat_state.map
        (fun st => { st with message_count := 0, last_activity := now }) })

/-- `DatabaseManager.get_chat_state`: read the state row, creating the
`ChatState.create_default` one (persona `'business'`, count 0) when it is
absent. -/
def get_chat_state (now : Nat) (db : ConvDB) : ChatStateRow × ConvDB :=
  match db.chat_state with
  | some st => (st, db)
  | none =>
      let st : ChatStateRow :=
        { current_persona := PersonaType.business
          message_count := 0
          last_activity := now }
      (st, { db with chat_state := some st })

/-! ### Conversation store lemmas -/

/-- C8 — `clear_chat_history` deletes all of the conversation's messages
and returns their count; a subsequent `get_chat_state` reports a message
count of 0 with the persona unchanged from before the clear; and the
state row itself is neither deleted nor created by the clear. -/
theorem clear_chat_history_spec (db : ConvDB) (t₁ t₂ : Nat) :
    (clear_chat_history t₁ db).1 = db.messages.length ∧
    (clear_chat_history t₁ db).2.messages = [] ∧
    (get_chat_state t₂ (clear_chat_history t₁ db).2).1.message_count = 0 ∧
    (get_chat_state t₂ (clear_chat_history t₁ db).2).1.current_persona
      = (get_chat_state t₂ db).1.current_persona ∧
    (clear_chat_history t₁ db).2.chat_state.isSome = db.chat_state.isSome := by
  cases h : db.chat_state with
  | none =>
      refine ⟨rfl, rfl, ?_, ?_, ?_⟩ <;>
        simp [clear_chat_history, get_chat_state, h]
  | some st =>
      refine ⟨rfl, rfl, ?_, ?_, ?_⟩ <;>
        simp [clear_chat_history, get_chat_state, h]

/-- C1 counterexample — the stored turn count can exceed
`MESSAGE_HISTORY_LIMIT`: after 21 saves (`H = 20`), 20 messages remain
but the state row's `message_count` is 21, because the counter is
recomputed after the insert and before the trim. -/
theorem save_message_count_exceeds_limit :
    (run_saves MESSAGE_HISTORY_LIMIT ConvDB.empty
        ((List.range 21).map (fun i =>
          (i, ⟨none, none, MessageRole.user, "hello", PersonaType.business, i⟩)))).chat_state
        = some { current_persona := PersonaType.business
                 message_count := 21
                 last_activity := 20 } ∧
    (run_saves MESSAGE_HISTORY_LIMIT ConvDB.empty
        ((List.range 21).map (fun i =>
          (i, ⟨none, none, MessageRole.user, "hello", PersonaType.business, i⟩)))).messages.length
        = 20 ∧
    ¬ (21 ≤ MESSAGE_HISTORY_LIMIT) := by
  refine ⟨by decide, by decide, by decide⟩

/-! ### Retention machinery

`cleanup_old_messages` trims incrementally (once per save).  The claim
speaks about the whole run: the rows kept must be the `H` most recent of
everything ever inserted.  `mostRecentOf` is that spec-side selection
(same rank criterion, applied to the full insertion history). -/

/-- The `H` most recent rows of `all` (most recent by `created_at`, ties
by insertion id), in table order. -/
def mostRecentOf (H : Nat) (all : List Message) : List Message :=
  all.filter (fun r => decide (moreRecent all r < H))

theorem cleanup_eq_mostRecentOf (H : Nat) (l : List Message) :
    cleanup_old_messages H l = mostRecentOf H l := rfl

theorem recencyLt_irrefl (a : Message) : ¬ recencyLt a a := by
  unfold recencyLt; omega

theorem recencyLt_trans {a b c : Message}
    (h₁ : recencyLt a b) (h₂ : recencyLt b c) : recencyLt a c := by
  unfold recencyLt at h₁ h₂ ⊢; omega

theorem recencyLt_asymm {a b : Message} (h : recencyLt a b) : ¬ recencyLt b a := by
  unfold recencyLt at h ⊢; omega

theorem recencyLt_of_not {a b : Message} (hne : a.id ≠ b.id)
    (h : ¬ recencyLt a b) : recencyLt b a := by
  unfold recencyLt at h ⊢; omega

/-- "Not less recent than": the non-strict descending comparison used to
sort the retention view. -/
def recencyGe (a b : Message) : Prop := ¬ recencyLt a b

instance : DecidableRel recencyGe := fun a b =>
  inferInstanceAs (Decidable (¬ _))

instance : IsTotal Message recencyGe :=
  ⟨fun a b => by unfold recencyGe recencyLt; omega⟩

instance : IsTrans Message recencyGe :=
  ⟨fun a b c h₁ h₂ => by unfold recencyGe recencyLt at h₁ h₂ ⊢; omega⟩

/-- Distinct primary keys, as held by any reachable `messages` table. -/
def pairwiseNeIds (l : List Message) : Prop :=
  l.Pairwise (fun a b => a.id ≠ b.id)

theorem moreRecent_le_of_recencyLt (l : List Message) {r s : Message}
    (h : recencyLt r s) : moreRecent l s ≤ moreRecent l r :=
  List.countP_mono_left (fun t _ ht =>
    decide_eq_true (recencyLt_trans h (of_decide_eq_true ht)))

theorem moreRecent_append_single (l : List Message) (x r : Message) :
    moreRecent (l ++ [x]) r
      = moreRecent l r + (if recencyLt r x then 1 else 0) := by
  unfold moreRecent
  rw [List.countP_append]
  congr 1
  by_cases h : recencyLt r x <;> simp [List.countP_cons, h]

/-- On a strictly descending list, exactly `min length H` elements have
fewer than `H` more-recent elements. -/
theorem countP_moreRecent_sorted : ∀ (s : List Message),
    s.Pairwise (fun a b => recencyLt b a) → ∀ H : Nat,
    s.countP (fun r => decide (moreRecent s r < H)) = min s.length H := by
  intro s
  induction s with
  | nil => intro _ H; simp
  | cons a t ih =>
      intro hp H
      obtain ⟨ha, ht⟩ := List.pairwise_cons.mp hp
      have fa : moreRecent (a :: t) a = 0 := by
        unfold moreRecent
        rw [List.countP_eq_zero]
        intro b hb
        rcases List.mem_cons.mp hb with rfl | hbt
        · simp [recencyLt_irrefl]
        · simp [recencyLt_asymm (ha b hbt)]
      have fr : ∀ r ∈ t, moreRecent (a :: t) r = moreRecent t r + 1 := by
        intro r hr
        unfold moreRecent
        rw [List.countP_cons]
        simp [ha r hr]
      rw [List.countP_cons]
      cases H with
      | zero =>
          have hz : t.countP (fun r => decide (moreRecent (a :: t) r < 0)) = 0 := by
            rw [List.countP_eq_zero]; intro b _; simp
          rw [hz]
          simp
      | succ H =>
          have hc : t.countP (fun r => decide (moreRecent (a :: t) r < H + 1))
              = t.countP (fun r => decide (moreRecent t r < H)) := by
            apply List.countP_congr
            intro r hr
            simp [fr r hr]
          rw [hc, ih ht H]
          have hlt : moreRecent (a :: t) a < H + 1 := by rw [fa]; omega
          simp only [hlt, decide_True, if_pos]
          simp only [List.length_cons]
          omega

/-- The trim keeps exactly `min length H` rows. -/
theorem length_cleanup (H : Nat) (l : List Message) (hl : pairwiseNeIds l) :
    (cleanup_old_messages H l).length = min l.length H := by
  have hperm : (List.insertionSort recencyGe l).Perm l :=
    List.perm_insertionSort recencyGe l
  have hsorted : List.Sorted recencyGe (List.insertionSort recencyGe l) :=
    List.sorted_insertionSort recencyGe l
  have hne : pairwiseNeIds (List.insertionSort recencyGe l) := by
    unfold pairwiseNeIds at hl ⊢
    exact (List.Perm.pairwise_iff (fun h => h.symm) hperm).mpr hl
  have hstrict : (List.insertionSort recencyGe l).Pairwise
      (fun a b => recencyLt b a) :=
    (List.Pairwise.and hsorted hne).imp
      (fun hab => recencyLt_of_not hab.2 hab.1)
  have hcnt : ∀ r, moreRecent l r = moreRecent (List.insertionSort recencyGe l) r :=
    fun r => (List.Perm.countP_eq _ hperm).symm
  calc (cleanup_old_messages H l).length
      = l.countP (fun r => decide (moreRecent l r < H)) :=
        (List.countP_eq_length_filter _ _).symm
    _ = (List.insertionSort recencyGe l).countP
          (fun r => decide (moreRecent l r < H)) :=
        (List.Perm.countP_eq _ hperm).symm
    _ = (List.insertionSort recencyGe l).countP
          (fun r => decide (moreRecent (List.insertionSort recencyGe l) r < H)) := by
        apply List.countP_congr
        intro r _
        rw [hcnt r]
    _ = min (List.insertionSort recencyGe l).length H :=
        countP_moreRecent_sorted _ hstrict H
    _ = min l.length H := by rw [hperm.length_eq]

/-- A row that survives the trim sees the same more-recent count before
and after it. -/
theorem moreRecent_cleanup_of_lt (H : Nat) (l : List Message) {r : Message}
    (hr : moreRecent l r < H) :
    moreRecent (cleanup_old_messages H l) r = moreRecent l r := by
  unfold cleanup_old_messages moreRecent
  rw [List.countP_filter]
  apply List.countP_congr
  intro s _
  by_cases hrs : recencyLt r s
  · have hs : moreRecent l s < H :=
      lt_of_le_of_lt (moreRecent_le_of_recencyLt l hrs) hr
    unfold moreRecent at hs
    simp [hrs, hs]
  · simp [hrs]

/-- For a fresh row, the more-recent count inside the trimmed table is
the old count capped at `H`. -/
theorem moreRecent_cleanup_new (H : Nat) (l : List Message) (x : Message)
    (hl : pairwiseNeIds l) :
    moreRecent (cleanup_old_messages H l) x = min (moreRecent l x) H := by
  have hG : pairwiseNeIds (l.filter (fun s => decide (recencyLt x s))) :=
    List.Pairwise.sublist (List.filter_sublist l) hl
  have h1 : moreRecent (cleanup_old_messages H l) x
      = (l.filter (fun s => decide (recencyLt x s))).countP
          (fun s => decide (moreRecent l s < H)) := by
    unfold cleanup_old_messages moreRecent
    rw [List.countP_filter, List.countP_filter]
    apply List.countP_congr
    intro s _
    constructor <;> intro h <;> simpa [Bool.and_comm] using h
  have h2 : ∀ s ∈ l.filter (fun s => decide (recencyLt x s)),
      moreRecent l s
        = moreRecent (l.filter (fun s => decide (recencyLt x s))) s := by
    intro s hs
    rw [List.mem_filter] at hs
    have hxs : recencyLt x s := of_decide_eq_true hs.2
    unfold moreRecent
    rw [List.countP_filter]
    apply List.countP_congr
    intro t _
    by_cases hst : recencyLt s t
    · simp [hst, recencyLt_trans hxs hst]
    · simp [hst]
  have h3 : (l.filter (fun s => decide (recencyLt x s))).length
      = moreRecent l x := by
    unfold moreRecent
    rw [List.countP_eq_length_filter]
  rw [h1]
  rw [List.countP_congr (fun s hs => by rw [h2 s hs])]
  rw [List.countP_eq_length_filter]
  have := length_cleanup H (l.filter (fun s => decide (recencyLt x s))) hG
  unfold cleanup_old_messages at this
  rw [this, h3]

/-- Incremental maintenance is global: trimming after appending one fresh
row to a trimmed table equals trimming the untrimmed table with the row
appended. -/
theorem cleanup_append_cleanup (H : Nat) (l : List Message) (x : Message)
    (hl : pairwiseNeIds (l ++ [x])) :
    cleanup_old_messages H (cleanup_old_messages H l ++ [x])
      = cleanup_old_messages H (l ++ [x]) := by
  have hl0 : pairwiseNeIds l :=
    List.Pairwise.sublist (List.sublist_append_left l [x]) hl
  have hq_mem : ∀ r ∈ l,
      (decide (moreRecent (cleanup_old_messages H l ++ [x]) r < H)
          && decide (moreRecent l r < H))
        = decide (moreRecent (l ++ [x]) r < H) := by
    intro r _
    by_cases hp : moreRecent l r < H
    · rw [moreRecent_append_single, moreRecent_cleanup_of_lt H l hp,
        moreRecent_append_single]
      simp [hp]
    · have h1 : ¬ moreRecent (l ++ [x]) r < H := by
        rw [moreRecent_append_single]
        omega
      simp [hp, h1]
  have hq_x : decide (moreRecent (cleanup_old_messages H l ++ [x]) x < H)
      = decide (moreRecent (l ++ [x]) x < H) := by
    rw [moreRecent_append_single, moreRecent_append_single,
      moreRecent_cleanup_new H l x hl0, if_neg (recencyLt_irrefl x)]
    rw [decide_eq_decide]
    omega
  show (cleanup_old_messages H l ++ [x]).filter _ = (l ++ [x]).filter _
  rw [List.filter_append, List.filter_append]
  congr 1
  · show (l.filter _).filter _ = _
    rw [List.filter_filter]
    exact List.filter_congr hq_mem
  · show List.filter _ [x] = List.filter _ [x]
    rw [List.filter_singleton, List.filter_singleton, hq_x]

theorem rows_from_id_ge : ∀ (inputs : List (Nat × NewMessage)) (nid : Nat),
    ∀ r ∈ rows_from nid inputs, nid ≤ r.id := by
  intro inputs
  induction inputs with
  | nil => intro nid r hr; simp [rows_from] at hr
  | cons im rest ih =>
      intro nid r hr
      obtain ⟨now, m⟩ := im
      rw [rows_from] at hr
      rcases List.mem_cons.mp hr with rfl | h
      · simp [NewMessage.toRow]
      · exact le_trans (Nat.le_succ nid) (ih (nid + 1) r h)

theorem rows_from_pairwiseNeIds : ∀ (inputs : List (Nat × NewMessage)) (nid : Nat),
    pairwiseNeIds (rows_from nid inputs) := by
  intro inputs
  induction inputs with
  | nil => intro nid; simp [rows_from, pairwiseNeIds]
  | cons im rest ih =>
      intro nid
      obtain ⟨now, m⟩ := im
      unfold pairwiseNeIds at ih ⊢
      rw [rows_from, List.pairwise_cons]
      refine ⟨?_, ih (nid + 1)⟩
      intro b hb
      have := rows_from_id_ge rest (nid + 1) b hb
      simp [NewMessage.toRow]
      omega

theorem rows_from_length : ∀ (inputs : List (Nat × NewMessage)) (nid : Nat),
    (rows_from nid inputs).length = inputs.length := by
  intro inputs
  induction inputs with
  | nil => intro nid; rfl
  | cons im rest ih =>
      intro nid
      obtain ⟨now, m⟩ := im
      rw [rows_from, List.length_cons, ih]
      rfl

/-- Invariant of a run of saves started on a trimmed table `cleanup H l`
whose untrimmed history is `l`: the final table is the trim of the full
insertion history, and the final counter (written by the last save before
its trim) is `min (total rows) (H + 1)`. -/
theorem run_saves_spec (H : Nat) : ∀ (inputs : List (Nat × NewMessage))
    (l : List Message) (nid : Nat) (st : Option ChatStateRow),
    (∀ r ∈ l, r.id < nid) → pairwiseNeIds l →
    (run_saves H ⟨cleanup_old_messages H l, nid, st⟩ inputs).messages
        = cleanup_old_messages H (l ++ rows_from nid inputs) ∧
    (inputs ≠ [] →
      ∃ stf, (run_saves H ⟨cleanup_old_messages H l, nid, st⟩ inputs).chat_state
          = some stf ∧
        stf.message_count = min (l.length + inputs.length) (H + 1)) := by
  intro inputs
  induction inputs with
  | nil =>
      intro l nid st _ _
      constructor
      · simp [run_saves, rows_from]
      · intro h; exact absurd rfl h
  | cons im rest ih =>
      intro l nid st hid hpw
      obtain ⟨now, m⟩ := im
      have hpw' : pairwiseNeIds (l ++ [m.toRow nid]) := by
        unfold pairwiseNeIds at hpw ⊢
        rw [List.pairwise_append]
        refine ⟨hpw, by simp, ?_⟩
        intro a ha b hb
        rw [List.mem_singleton] at hb
        subst hb
        have := hid a ha
        simp [NewMessage.toRow]
        omega
      have hid' : ∀ r ∈ l ++ [m.toRow nid], r.id < nid + 1 := by
        intro r hr
        rcases List.mem_append.mp hr with h | h
        · exact Nat.lt_succ_of_lt (hid r h)
        · rw [List.mem_singleton] at h
          subst h
          simp [NewMessage.toRow]
      have hstep : (save_message H now m ⟨cleanup_old_messages H l, nid, st⟩).2
          = ⟨cleanup_old_messages H (l ++ [m.toRow nid]), nid + 1,
             some ⟨persona_or_default st,
                   (cleanup_old_messages H l).length + 1, now⟩⟩ := by
        simp only [save_message, update_message_count]
        rw [cleanup_append_cleanup H l (m.toRow nid) hpw']
        simp [List.length_append]
      have hrun : run_saves H ⟨cleanup_old_messages H l, nid, st⟩ ((now, m) :: rest)
          = run_saves H ⟨cleanup_old_messages H (l ++ [m.toRow nid]), nid + 1,
              some ⟨persona_or_default st,
                    (cleanup_old_messages H l).length + 1, now⟩⟩ rest := by
        rw [run_saves, hstep]
      obtain ⟨ihm, ihc⟩ := ih (l ++ [m.toRow nid]) (nid + 1)
        (some ⟨persona_or_default st,
               (cleanup_old_messages H l).length + 1, now⟩) hid' hpw'
      constructor
      · rw [hrun, ihm, rows_from]
        simp [List.append_assoc]
      · intro _
        cases rest with
        | nil =>
            refine ⟨⟨persona_or_default st,
                     (cleanup_old_messages H l).length + 1, now⟩, ?_, ?_⟩
            · rw [hrun]
              rfl
            · show (cleanup_old_messages H l).length + 1 = _
              rw [length_cleanup H l hpw]
              simp
              omega
        | cons r2 rest2 =>
            obtain ⟨stf, hstf, hcount⟩ := ihc (by simp)
            refine ⟨stf, ?_, ?_⟩
            · rw [hrun]
              exact hstf
            · rw [hcount, List.length_append]
              simp
              omega

/-- C1 amended — for every configured limit `H` and every sequence of
`save_message` calls on a fresh conversation: after any write at most `H`
messages remain stored, and they are exactly the `H` most recent rows of
everything inserted (most recent by `created_at`, ties by insertion id);
the stored turn count, however, equals `min (number of writes) (H + 1)`
— it is recomputed from `COUNT(*)` after the insert and before the trim,
so it exceeds `H` by one as soon as more than `H` messages have been
written (it never exceeds `H + 1`). -/
theorem save_message_retention (H : Nat) (inputs : List (Nat × NewMessage)) :
    (run_saves H ConvDB.empty inputs).messages
        = mostRecentOf H (rows_from 1 inputs) ∧
    (run_saves H ConvDB.empty inputs).messages.length ≤ H ∧
    (inputs ≠ [] →
      ∃ st, (run_saves H ConvDB.empty inputs).chat_state = some st ∧
        st.message_count = min inputs.length (H + 1)) := by
  have hdb : ConvDB.empty = (⟨cleanup_old_messages H [], 1, none⟩ : ConvDB) := rfl
  obtain ⟨hm, hc⟩ := run_saves_spec H inputs [] 1 none
    (by intro r hr; simp at hr) (by unfold pairwiseNeIds; simp)
  rw [List.nil_append] at hm
  refine ⟨?_, ?_, ?_⟩
  · rw [hdb, hm, cleanup_eq_mostRecentOf]
  · rw [hdb, hm, length_cleanup H _ (rows_from_pairwiseNeIds inputs 1)]
    exact min_le_right _ _
  · intro hne
    obtain ⟨st, hst, hcount⟩ := hc hne
    refine ⟨st, ?_, ?_⟩
    · rw [hdb]
      exact hst
    · rw [hcount]
      simp

/-- Witness for `save_message_retention`: three saves with `H = 2` keep
the two most recent rows while the counter reads `min 3 3 = 3`. -/
theorem save_message_retention_witness :
    (run_saves 2 ConvDB.empty
        [(0, ⟨none, none, MessageRole.user, "a", PersonaType.business, 0⟩),
         (1, ⟨none, none, MessageRole.assistant, "b", PersonaType.business, 1⟩),
         (2, ⟨none, none, MessageRole.user, "c", PersonaType.business, 2⟩)]).messages
      = mostRecentOf 2 (rows_from 1
        [(0, ⟨none, none, MessageRole.user, "a", PersonaType.business, 0⟩),
         (1, ⟨none, none, MessageRole.assistant, "b", PersonaType.business, 1⟩),
         (2, ⟨none, none, MessageRole.user, "c", PersonaType.business, 2⟩)]) ∧
    (run_saves 2 ConvDB.empty
        [(0, ⟨none, none, MessageRole.user, "a", PersonaType.business, 0⟩),
         (1, ⟨none, none, MessageRole.assistant, "b", PersonaType.business, 1⟩),
         (2, ⟨none, none, MessageRole.user, "c", PersonaType.business, 2⟩)]).messages.length ≤ 2 ∧
    ∃ st, (run_saves 2 ConvDB.empty
        [(0, ⟨none, none, MessageRole.user, "a", PersonaType.business, 0⟩),
         (1, ⟨none, none, MessageRole.assistant, "b", PersonaType.business, 1⟩),
         (2, ⟨none, none, MessageRole.user, "c", PersonaType.business, 2⟩)]).chat_state
        = some st ∧
      st.message_count = min 3 (2 + 1) := by
  obtain ⟨h1, h2, h3⟩ := save_message_retention 2
    [(0, ⟨none, none, MessageRole.user, "a", PersonaType.business, 0⟩),
     (1, ⟨none, none, MessageRole.assistant, "b", PersonaType.business, 1⟩),
     (2, ⟨none, none, MessageRole.user, "c", PersonaType.business, 2⟩)]
  exact ⟨h1, h2, h3 (by decide)⟩

end Bella
